import Mathlib

/-!
Shallow embedding of the SmartChargingEV core (src/simulation/simulation.py and
src/simulation/real_load_profile.py), together with theorems checking the
natural-language specification against it.

Conventions of the embedding:
* Money and energy quantities are rationals (`ℚ`); the Python floats carry exact
  decimal values in every scenario we evaluate.
* Hours of the horizon are natural numbers; absolute timestamps are integers
  (minutes for the baseline engine, hours for the spot-price index).
* Python exceptions are explicit: fallible steps return `Except`/`Option`, and
  the control flow of `optimize_charging` is embedded as an event trace paired
  with the error (if any) that aborts the run.
* The calendar is abstracted by a `month : Nat → Nat` function: the code derives
  `hours_to_month` from `pandas.date_range`; we keep the composition
  `hour ↦ month (start + hour)` as an opaque parameter `htm`.
-/

/-- Python-level runtime errors that the simulation code can raise before or
instead of calling the solver. -/
inductive RunError where
  | valueError
  | nameError
  | indexError
deriving DecidableEq

/-- One row of `df_overview` as consumed by `optimize_charging`:
columns `StartHour`, `EndHour`, `Energy`, `Max_power [kW]`. -/
structure OverviewRow where
  startHour : Nat
  endHour : Nat
  energy : ℚ
  maxPower : ℚ
deriving DecidableEq

/-- The `ElectricVehicle` class defined inside `optimize_charging`. -/
structure ElectricVehicle where
  arrival_time : Nat
  departure_time : Nat
  required_charge : ℚ
  max_charge_rate : ℚ
deriving DecidableEq

/-- The `if power_method == "Reell" ... elif power_method == "22"` vehicle
construction: "Reell" reads per-vehicle max power from the overview table,
"22" uses the flat 22.1 kW rate, any other value leaves `vehicles` unassigned
(`none`, the Python `NameError` surfaces at first use). -/
def mkVehicles (power_method : String) (rows : List OverviewRow) :
    Option (List ElectricVehicle) :=
  if power_method = "Reell" then
    some (rows.map fun r => ⟨r.startHour, r.endHour, r.energy, r.maxPower⟩)
  else if power_method = "22" then
    some (rows.map fun r => ⟨r.startHour, r.endHour, r.energy, (221/10 : ℚ)⟩)
  else
    none

/-- `n_hours = int(df_overview["EndHour"].max())`. -/
def nHoursOf (rows : List OverviewRow) : Nat :=
  rows.foldl (fun acc r => max acc r.endHour) 0

/-- `get_relevant_spotprices`: the spot-price table is a list of
(timestamp, price) rows indexed by `DateTimeUtc` (hours, as integers).
If the chosen start time is in the index, all rows with index earlier than the
start are deleted; otherwise a `ValueError` is raised. -/
def get_relevant_spotprices (rows : List (Int × ℚ)) (start_time_utc : Int) :
    Except RunError (List (Int × ℚ)) :=
  if (rows.map Prod.fst).contains start_time_utc then
    Except.ok (rows.filter fun r => !(r.1 < start_time_utc))
  else
    Except.error RunError.valueError

/-- Python list indexing: nonnegative indices from the front, negative indices
from the back, `none` when out of range (an `IndexError`). -/
def pyIdx (l : List ℚ) (i : Int) : Option ℚ :=
  if 0 ≤ i then
    if i < (l.length : Int) then some (l.getD i.toNat 0) else none
  else
    if 0 ≤ (l.length : Int) + i then some (l.getD ((l.length : Int) + i).toNat 0)
    else none

/-- Whether evaluating `charging_cost_per_hour[t-1]` succeeds for every
`t in range(n_hours)` (the indices the objective's `quicksum` touches). -/
def objectiveIndexOk (nHours : Nat) (prices : List ℚ) : Bool :=
  (List.range nHours).all fun t => (pyIdx prices ((t : Int) - 1)).isSome

/-- The price coefficient the code attaches to hour `t`:
`charging_cost_per_hour[t-1]`, so hour 0 receives `prices[-1]`, the LAST
element of the price list (Python negative indexing). -/
def priceAtCode (prices : List ℚ) (t : Nat) : ℚ :=
  (pyIdx prices ((t : Int) - 1)).getD 0

/-- The energy term of the objective as the code builds it
(`quicksum(charge_rate[v, t] * charging_cost_per_hour[t-1] ...)`); `none`
mirrors the `IndexError` raised while the generator is consumed.  When
`N_cars = 0` the generator is empty and no index is evaluated. -/
def energyCostCode (nCars nHours : Nat) (prices : List ℚ)
    (charge : Nat → Nat → ℚ) : Option ℚ :=
  if nCars = 0 || objectiveIndexOk nHours prices then
    some (∑ v ∈ Finset.range nCars, ∑ t ∈ Finset.range nHours,
      charge v t * priceAtCode prices t)
  else none

/-- Modelled from the spec: the energy term the specification describes, where
hour `t` is priced at the spot price of that same hour `t`
(`Σ_v Σ_t charge[v,t]·price[t]`).  Comparator for the refinement claim about
the objective; it is not how the code indexes the price list. -/
def energyCostSpec (nCars nHours : Nat) (prices : List ℚ)
    (charge : Nat → Nat → ℚ) : ℚ :=
  ∑ v ∈ Finset.range nCars, ∑ t ∈ Finset.range nHours,
    charge v t * prices.getD t 0

/-- `unique_months = set(hours_to_month.values())` where `hours_to_month`
enumerates `all_dates[0..n_hours]` (one more entry than charging hours). -/
def uniqueMonths (nHours : Nat) (htm : Nat → Nat) : List Nat :=
  ((List.range (nHours + 1)).map htm).dedup

/-- The peak term of the objective:
`quicksum(peak_costs[m] * peak_load_monthly[m] for m in unique_months)`. -/
def peakCostVal (months : List Nat) (tariff peakM : Nat → ℚ) : ℚ :=
  (months.map fun m => tariff m * peakM m).sum

/-- Observable events of one `optimize_charging` run, in program order. -/
inductive Event where
  | modelCreated
  | varsAdded
  | objectiveSet
  | constraintsAdded
  /-- `m.feasRelax(..., constrs=con_power, rhspen=conpens)`; carries the
  penalty list `conpens`. -/
  | relaxApplied (pens : List ℚ)
  | solveCalled
deriving DecidableEq

/-- Control-flow trace of `optimize_charging` up to (and including) the
`m.optimize()` call, with the Python error that aborts the run, if any.
Mirrors the program order of src/simulation/simulation.py:
`n_hours` (ValueError on an empty table via `int(nan)`), `Model()`,
`addVars`, the objective `quicksum` (possible IndexError), the constraint
loop (NameError at `vehicles[v]` when `power_method` matched neither branch),
`feasRelax` only under `power_method == "Reell"`, then a single `optimize()`. -/
def optimize_charging_trace (power_method : String) (overview : List OverviewRow)
    (pricesPerMWh : List ℚ) : List Event × Option RunError :=
  if overview.length = 0 then ([], some RunError.valueError) else
  let nCars := overview.length
  let nHours := nHoursOf overview
  let prices := (pricesPerMWh.map fun p => p / 1000).take nHours
  let ev := [Event.modelCreated, Event.varsAdded]
  if !objectiveIndexOk nHours prices then (ev, some RunError.indexError) else
  let ev := ev ++ [Event.objectiveSet]
  match mkVehicles power_method overview with
  | none => (ev, some RunError.nameError)
  | some _vehicles =>
    let ev := ev ++ [Event.constraintsAdded]
    let ev := if power_method = "Reell" then
        ev ++ [Event.relaxApplied (List.replicate (nCars * nHours) (1/10 : ℚ))]
      else ev
    (ev ++ [Event.solveCalled], none)

/-- `run_simulation`: spot-price preparation followed by the optimization run
(the overview preparation keeps the table unchanged when all cars are kept). -/
def run_simulation_trace (spotRows : List (Int × ℚ)) (start_time_utc : Int)
    (overview : List OverviewRow) (power_method : String) :
    List Event × Option RunError :=
  match get_relevant_spotprices spotRows start_time_utc with
  | Except.error e => ([], some e)
  | Except.ok df => optimize_charging_trace power_method overview (df.map Prod.snd)

/-- The price index covers every hour the horizon needs: hours
`start, start+1, …, start+n-1` are all present. -/
def coversHorizon (idx : List Int) (start : Int) (n : Nat) : Prop :=
  ∀ k < n, (start + (k : Int)) ∈ idx

instance (idx : List Int) (start : Int) (n : Nat) :
    Decidable (coversHorizon idx start n) := by
  unfold coversHorizon; infer_instance

/-- Identifiers for the model's constraints, named after the `name=` strings
the code passes to `addConstr`. -/
inductive ConId where
  /-- `charge_constraint_{v}`: the energy-commitment equality. -/
  | energyEq (v : Nat)
  /-- `no_charge_outside_stay_{v}_{t}`. -/
  | noCharge (v t : Nat)
  /-- `max_charge_rate_per_vehicle_{v}_{t}`. -/
  | rateCap (v t : Nat)
  /-- `monthly_peak_{t}`. -/
  | monthlyPeak (t : Nat)
  /-- `capacity_limit` at hour `t`. -/
  | capacity (t : Nat)
deriving DecidableEq

/-- The `con_power` list the code accumulates: exactly the per-vehicle
rate-cap constraints, one for every `(v, t)` with `v < N_cars`,
`t < n_hours`, in loop order.  This is the `constrs=torelax` argument
handed to `feasRelax`. -/
def con_power (nCars nHours : Nat) : List ConId :=
  (List.range nCars).flatMap fun v =>
    (List.range nHours).map fun t => ConId.rateCap v t

/-- The data defining one optimization model instance. -/
structure ModelData where
  nCars : Nat
  nHours : Nat
  vehicles : List ElectricVehicle
  maxTotalLoad : ℚ
  /-- `hours_to_month`: month of `all_dates[t]`. -/
  htm : Nat → Nat

/-- Vehicle `v` of the model (lists are long enough in every run we build). -/
def vehAt (mdl : ModelData) (v : Nat) : ElectricVehicle :=
  mdl.vehicles.getD v ⟨0, 0, 0, 0⟩

/-- The model `optimize_charging` builds from its inputs (`max_total_load`
is the literal 500); `none` when the `power_method` string matches neither
branch and `vehicles` stays unassigned. -/
def buildModel (power_method : String) (rows : List OverviewRow)
    (month : Nat → Nat) : Option ModelData :=
  (mkVehicles power_method rows).map fun vs =>
    ⟨rows.length, nHoursOf rows, vs, 500, month⟩

/-- `quicksum(charge_rate[v, t] for t in range(arrival, departure))`. -/
def windowSum (mdl : ModelData) (charge : Nat → Nat → ℚ) (v : Nat) : ℚ :=
  ∑ t ∈ Finset.Ico (vehAt mdl v).arrival_time (vehAt mdl v).departure_time,
    charge v t

/-- `quicksum(charge_rate[v, t] for v in range(N_cars))` at hour `t`. -/
def totalLoadAt (mdl : ModelData) (charge : Nat → Nat → ℚ) (t : Nat) : ℚ :=
  ∑ v ∈ Finset.range mdl.nCars, charge v t

/-- Slack allowance of a constraint: positive only for constraints in the
relaxed list (feasRelax adds slack variables for `constrs` only; everything
else keeps its original right-hand side). -/
def allow (relaxed : List ConId) (slack : ConId → ℚ) (c : ConId) : ℚ :=
  if c ∈ relaxed then slack c else 0

/-- Satisfaction of the (possibly relaxed) model: variable lower bounds
(`lb=0`), the energy-commitment equalities, window confinement, per-vehicle
rate caps, monthly-peak linkage and the global 500 kW capacity limit, where a
constraint in `relaxed` may be violated by its nonnegative slack allowance
(feasRelax `rhspen` semantics) and every other constraint is hard. -/
def modelSat (mdl : ModelData) (relaxed : List ConId) (slack : ConId → ℚ)
    (charge : Nat → Nat → ℚ) (peakM : Nat → ℚ) : Prop :=
  (∀ c ∈ relaxed, 0 ≤ slack c) ∧
  (∀ v < mdl.nCars, ∀ t < mdl.nHours, 0 ≤ charge v t) ∧
  (∀ u < mdl.nHours + 1, 0 ≤ peakM (mdl.htm u)) ∧
  (∀ v < mdl.nCars,
    |windowSum mdl charge v - (vehAt mdl v).required_charge|
      ≤ allow relaxed slack (ConId.energyEq v)) ∧
  (∀ v < mdl.nCars, ∀ t < mdl.nHours,
    (t < (vehAt mdl v).arrival_time ∨ (vehAt mdl v).departure_time ≤ t) →
      |charge v t| ≤ allow relaxed slack (ConId.noCharge v t)) ∧
  (∀ v < mdl.nCars, ∀ t < mdl.nHours,
    charge v t ≤ (vehAt mdl v).max_charge_rate
      + allow relaxed slack (ConId.rateCap v t)) ∧
  (∀ t < mdl.nHours,
    totalLoadAt mdl charge t ≤ peakM (mdl.htm t)
      + allow relaxed slack (ConId.monthlyPeak t)) ∧
  (∀ t < mdl.nHours,
    totalLoadAt mdl charge t ≤ mdl.maxTotalLoad
      + allow relaxed slack (ConId.capacity t))

/-- The unrelaxed model: no constraint receives any slack. -/
def feasible (mdl : ModelData) (charge : Nat → Nat → ℚ) (peakM : Nat → ℚ) :
    Prop :=
  modelSat mdl [] (fun _ => 0) charge peakM

/-- Round half to even, the tie-breaking rule of Python's `round`. -/
def pyRoundHalfEven (s : ℚ) : ℤ :=
  if s - (⌊s⌋ : ℚ) < 1/2 then ⌊s⌋
  else if 1/2 < s - (⌊s⌋ : ℚ) then ⌊s⌋ + 1
  else if ⌊s⌋ % 2 = 0 then ⌊s⌋ else ⌊s⌋ + 1

/-- Python's `round(q, 2)` on an exact value: scale by 100, round half to
even, scale back. -/
def pyRound2 (q : ℚ) : ℚ :=
  (pyRoundHalfEven (q * 100) : ℚ) / 100

/-- What the solver hands back after `m.optimize()`: the reported objective
value and the variable assignment. -/
structure SolverOutput where
  objVal : ℚ
  charge : Nat → Nat → ℚ
  peakM : Nat → ℚ

/-- The `defaultdict(int)` accumulation loop
`monthly[month] += f(key) for key, month in hours_to_month_copy.items()`. -/
def monthlyAgg (keys : List Nat) (htm : Nat → Nat) (f : Nat → ℚ) :
    Nat → ℚ :=
  keys.foldl (fun acc t m => if m = htm t then acc m + f t else acc m)
    (fun _ => 0)

/-- The fields of `_get_optimization_results` the claims talk about. -/
structure OptimizationResult where
  total_cost : ℚ
  total_energy_cost : ℚ
  total_peak_cost : ℚ
  exceeded_power : ℚ
  total_load_profile : List ℚ
  monthly_energy_charge : Nat → ℚ
  monthly_energy_cost : Nat → ℚ

/-- `_get_optimization_results`: `exceeded_power = round(model.objVal, 2)`;
energy/peak costs re-evaluated from the assignment; the monthly aggregation
iterates over `hours_to_month` with its last key (`n_hours`, the final
boundary timestamp of `all_dates`) popped, adding
`total_load_profile[key]` resp. `total_load_profile[key] *
charging_cost_per_hour[key]` to the key's month. -/
def _get_optimization_results (mdl : ModelData) (prices : List ℚ)
    (tariff : Nat → ℚ) (sol : SolverOutput) : OptimizationResult :=
  let load := (List.range mdl.nHours).map fun t => totalLoadAt mdl sol.charge t
  let tec := pyRound2 (∑ v ∈ Finset.range mdl.nCars,
    ∑ t ∈ Finset.range mdl.nHours, sol.charge v t * priceAtCode prices t)
  let tpc := pyRound2 (peakCostVal (uniqueMonths mdl.nHours mdl.htm) tariff
    sol.peakM)
  let keys := (List.range (mdl.nHours + 1)).dropLast
  { total_cost := tec + tpc
    total_energy_cost := tec
    total_peak_cost := tpc
    exceeded_power := pyRound2 sol.objVal
    total_load_profile := load
    monthly_energy_charge := monthlyAgg keys mdl.htm fun t => load.getD t 0
    monthly_energy_cost :=
      monthlyAgg keys mdl.htm fun t => load.getD t 0 * prices.getD t 0 }

/-- `pandas.Timestamp.floor('H')` on a timestamp in minutes. -/
def floorHourMin (t : Int) : Int := 60 * Int.fdiv t 60

/-- The shift `shift_dataframe_time` computes:
`int((specified_time - min_time).total_seconds() / 3600)` — Python `int()`
truncates toward zero. -/
def hoursToShiftCode (S M : Int) : Int := Int.tdiv (S - floorHourMin M) 60

/-- Modelled from the spec: the shift as the specification words it,
`floor(hours(S − M))` with `M` floored to the hour.  Comparator for the
refinement claim about the time shift; it is not what `int()` computes for
negative non-whole differences. -/
def hoursToShiftSpecFloor (S M : Int) : Int := Int.fdiv (S - floorHourMin M) 60

/-- `shift_dataframe_time`: timestamps in minutes; the overview rows carry
`(StartDateTime, EndDateTime)`, the detailed rows one `DateTimeUtc` each.
`none` mirrors the NaT/empty-table failure when there is no minimum. -/
def shift_dataframe_time (overview : List (Int × Int)) (detailed : List Int)
    (S : Int) : Option (List (Int × Int) × List Int) :=
  match detailed.min? with
  | none => none
  | some m0 =>
    let h := hoursToShiftCode S m0
    some (overview.map fun p => (p.1 + 60 * h, p.2 + 60 * h),
      detailed.map fun t => t + 60 * h)

/-- A one-vehicle overview table: arrival hour 0, departure hour 1,
5 kWh required, 10 kW observed max power. -/
def rowsA : List OverviewRow := [⟨0, 1, 5, 10⟩]

/-- The model `optimize_charging` builds from `rowsA` in flat-rate mode
("22"): one car, one hour, rate 22.1 kW, month map constant. -/
def mdlA : ModelData := ⟨1, 1, [⟨0, 1, 5, 221/10⟩], 500, fun _ => 1⟩

/-- A solver assignment for `mdlA`: the single car charges its full 5 kWh in
hour 0. -/
def chargeA : Nat → Nat → ℚ := fun v t => if v = 0 ∧ t = 0 then 5 else 0

/-- Monthly-peak assignment matching `chargeA`. -/
def peakA : Nat → ℚ := fun _ => 5

/-- An overview table with one over-required vehicle: 100 kWh demanded in a
2-hour window (flat mode caps the rate at 22.1 kW, so at most 44.2 kWh fit). -/
def rowsB : List OverviewRow := [⟨0, 2, 100, 10⟩]

/-- The model `optimize_charging` builds from `rowsB` in flat-rate mode. -/
def mdlB : ModelData := ⟨1, 2, [⟨0, 2, 100, 221/10⟩], 500, fun _ => 1⟩

/-- A spot-price table whose index has a gap strictly inside the horizon:
hour 2 is missing from 0, 1, 3, 4. -/
def spotRowsGap : List (Int × ℚ) := [(0, 1000), (1, 1000), (3, 1000), (4, 1000)]

/-- A one-vehicle table with a 4-hour window, so the horizon needs hours
0, 1, 2 and 3. -/
def rowsC : List OverviewRow := [⟨0, 4, 5, 10⟩]

/-!  Helper lemmas (shared between claims). -/

theorem monthlyAgg_foldl (keys : List Nat) (htm : Nat → Nat) (f : Nat → ℚ)
    (acc : Nat → ℚ) (m : Nat) :
    (keys.foldl (fun acc t m2 => if m2 = htm t then acc m2 + f t else acc m2)
        acc) m
      = acc m + ((keys.filter fun t => decide (htm t = m)).map f).sum := by
  induction keys generalizing acc with
  | nil => simp
  | cons k ks ih =>
    simp only [List.foldl_cons, List.filter_cons]
    rw [ih]
    by_cases h : htm k = m
    · simp only [h]
      simp
      ring
    · have h2 : ¬ m = htm k := fun hh => h hh.symm
      simp [h, h2]

theorem monthlyAgg_eq_sum (keys : List Nat) (htm : Nat → Nat) (f : Nat → ℚ)
    (m : Nat) :
    monthlyAgg keys htm f m
      = ((keys.filter fun t => decide (htm t = m)).map f).sum := by
  unfold monthlyAgg
  rw [monthlyAgg_foldl]
  simp

theorem filter_range_map_sum (n : Nat) (p : Nat → Prop) [DecidablePred p]
    (f : Nat → ℚ) :
    (((List.range n).filter fun t => decide (p t)).map f).sum
      = ∑ t ∈ Finset.range n, if p t then f t else 0 := by
  induction n with
  | zero => simp
  | succ n ih =>
    rw [List.range_succ, List.filter_append, Finset.sum_range_succ,
      List.map_append, List.sum_append, ih]
    by_cases h : p n <;> simp [h]

theorem getD_map_range (n t : Nat) (g : Nat → ℚ) (ht : t < n) :
    ((List.range n).map g).getD t 0 = g t := by
  rw [List.getD_eq_getElem?_getD, List.getElem?_map, List.getElem?_range ht]
  rfl

theorem pyRound2_of_mul_eq_int (q : ℚ) (z : ℤ) (h : q * 100 = (z : ℚ)) :
    pyRound2 q = (z : ℚ) / 100 := by
  unfold pyRound2 pyRoundHalfEven
  rw [h]
  simp [Int.floor_intCast]

theorem pyRound2_pos (q : ℚ) (hq : 1/200 < q) : 0 < pyRound2 q := by
  unfold pyRound2 pyRoundHalfEven
  have hs : (1/2 : ℚ) < q * 100 := by linarith
  have hf0 : (0 : ℤ) ≤ ⌊q * 100⌋ := by
    rw [Int.le_floor]
    push_cast
    linarith
  have hfl : ((⌊q * 100⌋ : ℤ) : ℚ) ≤ q * 100 := Int.floor_le _
  have hfu : q * 100 < ((⌊q * 100⌋ : ℤ) : ℚ) + 1 := Int.lt_floor_add_one _
  set f : ℤ := ⌊q * 100⌋ with hfdef
  have hf0q : (0 : ℚ) ≤ (f : ℚ) := by exact_mod_cast hf0
  split_ifs with h1 h2 h3
  · exact div_pos (by linarith) (by norm_num)
  · push_cast
    exact div_pos (by linarith) (by norm_num)
  · have hr : q * 100 - (f : ℚ) = 1/2 := le_antisymm (not_lt.mp h2) (not_lt.mp h1)
    exact div_pos (by linarith) (by norm_num)
  · push_cast
    exact div_pos (by linarith) (by norm_num)

theorem vehAt_mdlA : vehAt mdlA 0 = ⟨0, 1, 5, 221/10⟩ := by
  simp [vehAt, mdlA]

theorem windowSum_mdlA : windowSum mdlA chargeA 0 = 5 := by
  unfold windowSum
  rw [vehAt_mdlA]
  simp [Nat.Ico_zero_eq_range, chargeA]

theorem totalLoadAt_mdlA : totalLoadAt mdlA chargeA 0 = 5 := by
  simp [totalLoadAt, mdlA, chargeA]

theorem feasible_mdlA : feasible mdlA chargeA peakA := by
  unfold feasible modelSat
  refine ⟨by simp, ?_, ?_, ?_, ?_, ?_, ?_, ?_⟩
  · intro v hv t ht
    simp only [mdlA] at hv ht
    interval_cases v
    interval_cases t
    norm_num [chargeA]
  · intro u hu
    norm_num [peakA]
  · intro v hv
    simp only [mdlA] at hv
    interval_cases v
    rw [windowSum_mdlA, vehAt_mdlA]
    simp [allow]
  · intro v hv t ht hout
    simp only [mdlA] at hv ht
    interval_cases v
    interval_cases t
    rw [vehAt_mdlA] at hout
    simp at hout
  · intro v hv t ht
    simp only [mdlA] at hv ht
    interval_cases v
    interval_cases t
    rw [vehAt_mdlA]
    norm_num [chargeA, allow]
  · intro t ht
    simp only [mdlA] at ht
    interval_cases t
    rw [totalLoadAt_mdlA]
    norm_num [peakA, allow, mdlA]
  · intro t ht
    simp only [mdlA] at ht
    interval_cases t
    rw [totalLoadAt_mdlA]
    norm_num [allow, mdlA]

/-- Claim C8 (corrected), counterexample: choose start `S` = 00:30 (minute 30)
and a single fine-grained record at 02:30 (minute 150), so `M` floored to the
hour is 02:00 and the hour difference is −1.5 h.  The specification's
`floor` gives −2, but `shift_dataframe_time` computes Python
`int(−1.5) = −1` (truncation toward zero) and shifts the record to
minute 90, not minute 30. -/
theorem C8_counterexample :
    hoursToShiftCode 30 150 = -1 ∧
    hoursToShiftSpecFloor 30 150 = -2 ∧
    shift_dataframe_time [] [150] 30 = some ([], [90]) ∧
    hoursToShiftCode 30 150 ≠ hoursToShiftSpecFloor 30 150 := by
  refine ⟨by decide, by decide, ?_, by decide⟩
  decide

/-- Claim C8 (corrected, amended): `shift_dataframe_time` shifts every
timestamp of both the overview and the detailed records by the same whole
number of hours, namely the hour difference between `S` and the minimum
detailed timestamp floored to the hour, truncated toward zero by Python's
`int()`; this agrees with the specification's `floor` whenever `S` is not
earlier than the floored minimum (and in particular for every forward
shift), but not in general. -/
theorem C8_amended (overview : List (Int × Int)) (detailed : List Int)
    (S m0 : Int) (hmin : detailed.min? = some m0) :
    shift_dataframe_time overview detailed S =
      some (overview.map fun p => (p.1 + 60 * hoursToShiftCode S m0,
              p.2 + 60 * hoursToShiftCode S m0),
            detailed.map fun t => t + 60 * hoursToShiftCode S m0) ∧
    (floorHourMin m0 ≤ S → hoursToShiftCode S m0 = hoursToShiftSpecFloor S m0) := by
  constructor
  · unfold shift_dataframe_time
    rw [hmin]
  · intro hle
    unfold hoursToShiftCode hoursToShiftSpecFloor
    rw [Int.fdiv_eq_tdiv (by omega) (by norm_num)]

/-- Witness for C8_amended: a forward shift from minimum timestamp 01:00
(minute 60) to start 02:05 (minute 125) moves every timestamp of both
records by one hour (the truncated and floored shifts agree). -/
theorem C8_amended_witness :
    ([(60 : Int)].min? = some 60) ∧ floorHourMin 60 ≤ 125 ∧
    shift_dataframe_time [((0 : Int), (10 : Int))] [60] 125 =
      some ([(0 + 60 * hoursToShiftCode 125 60, 10 + 60 * hoursToShiftCode 125 60)],
            [60 + 60 * hoursToShiftCode 125 60]) ∧
    hoursToShiftCode 125 60 = hoursToShiftSpecFloor 125 60 := by
  have h := C8_amended [((0 : Int), (10 : Int))] [60] 125 60 (by decide)
  exact ⟨by decide, by decide, h.1, h.2 (by decide)⟩

/-- Claim C10 (confirmed): `get_relevant_spotprices` raises `ValueError`
exactly when the chosen start time is not an index entry; otherwise it
returns the rows with every timestamp earlier than the start removed, the
remaining rows unchanged and in their original order (a sublist of the
input, containing a row of the input iff its timestamp is not earlier than
the start). -/
theorem C10_spotprice_preparation (rows : List (Int × ℚ)) (start : Int) :
    (get_relevant_spotprices rows start = Except.error RunError.valueError
      ↔ start ∉ rows.map Prod.fst) ∧
    ∀ l, get_relevant_spotprices rows start = Except.ok l →
      l = rows.filter (fun r => !(r.1 < start)) ∧
      l.Sublist rows ∧
      ∀ r, r ∈ l ↔ r ∈ rows ∧ ¬ r.1 < start := by
  unfold get_relevant_spotprices
  by_cases h : start ∈ rows.map Prod.fst
  · rw [if_pos (by simpa using h)]
    refine ⟨⟨fun habs => Except.noConfusion habs, fun habs => absurd h habs⟩, ?_⟩
    intro l hl
    have hl2 : l = rows.filter (fun r => !(r.1 < start)) :=
      (Except.ok.injEq _ _).mp hl.symm
    subst hl2
    refine ⟨rfl, List.filter_sublist _, ?_⟩
    intro r
    simp [List.mem_filter]
  · rw [if_neg (by simpa using h)]
    refine ⟨⟨fun _ => h, fun _ => rfl⟩, ?_⟩
    intro l hl
    exact Except.noConfusion hl

/-- Witness for C10_spotprice_preparation: the table with hours 0 and 1 and
start time 1 keeps exactly the row at hour 1. -/
theorem C10_spotprice_preparation_witness :
    (get_relevant_spotprices [(0, 10), (1, 20)] 1 = Except.ok [(1, 20)]) ∧
    ([(1, 20)] : List (Int × ℚ)) = [(0, 10), (1, 20)].filter (fun r => !(r.1 < 1)) ∧
    (((1 : Int), (20 : ℚ)) ∈ ([(1, 20)] : List (Int × ℚ)) ↔
      ((1 : Int), (20 : ℚ)) ∈ ([(0, 10), (1, 20)] : List (Int × ℚ)) ∧ ¬ (1 : Int) < 1) := by
  have hok : get_relevant_spotprices [(0, 10), (1, 20)] 1 = Except.ok [(1, 20)] := rfl
  have h := (C10_spotprice_preparation [(0, 10), (1, 20)] 1).2 [(1, 20)] hok
  exact ⟨hok, h.1, h.2.2 ((1 : Int), (20 : ℚ))⟩

/-- Claim C9 (corrected), counterexample: with the spec's literal
`power_method = "observed"` the run does fail with an undefined-variable
error (`vehicles` was never assigned) before any constraint or solver call
— but NOT before model construction: the Gurobi model, its decision
variables and its objective are all constructed first, as the trace shows. -/
theorem C9_counterexample :
    optimize_charging_trace "observed" rowsA [1000] =
      ([Event.modelCreated, Event.varsAdded, Event.objectiveSet],
        some RunError.nameError) ∧
    Event.modelCreated ∈ (optimize_charging_trace "observed" rowsA [1000]).1 := by
  exact ⟨rfl, by rw [show (optimize_charging_trace "observed" rowsA [1000]).1 =
    [Event.modelCreated, Event.varsAdded, Event.objectiveSet] from rfl]; simp⟩

/-- Claim C9 (corrected, amended): the optimization entry point is defined
only for the accepted `power_method` values "Reell" and "22"; for every
other value (including the spec's "observed" and "flat_22.1kW") the run
fails with an undefined-variable `NameError` when the first per-vehicle
constraint is built — after the model, its decision variables and its
objective have been constructed, but before any constraint is added and
before any solver call. -/
theorem C9_amended (pm : String) (overview : List OverviewRow)
    (prices : List ℚ)
    (hpm1 : pm ≠ "Reell") (hpm2 : pm ≠ "22") (hne : overview.length ≠ 0)
    (hidx : objectiveIndexOk (nHoursOf overview)
      ((prices.map fun p => p / 1000).take (nHoursOf overview)) = true) :
    optimize_charging_trace pm overview prices =
      ([Event.modelCreated, Event.varsAdded, Event.objectiveSet],
        some RunError.nameError) ∧
    Event.constraintsAdded ∉ (optimize_charging_trace pm overview prices).1 ∧
    Event.solveCalled ∉ (optimize_charging_trace pm overview prices).1 := by
  have htr : optimize_charging_trace pm overview prices =
      ([Event.modelCreated, Event.varsAdded, Event.objectiveSet],
        some RunError.nameError) := by
    unfold optimize_charging_trace
    rw [if_neg hne, if_neg (by simp [hidx])]
    rw [show mkVehicles pm overview = none by simp [mkVehicles, hpm1, hpm2]]
    rfl
  refine ⟨htr, ?_, ?_⟩ <;> rw [htr] <;> simp

/-- Witness for C9_amended at `power_method = "observed"`. -/
theorem C9_amended_witness :
    ("observed" ≠ "Reell") ∧ ("observed" ≠ "22") ∧ rowsA.length ≠ 0 ∧
    objectiveIndexOk (nHoursOf rowsA)
      ((([(1000 : ℚ)]).map fun p => p / 1000).take (nHoursOf rowsA)) = true ∧
    optimize_charging_trace "observed" rowsA [1000] =
      ([Event.modelCreated, Event.varsAdded, Event.objectiveSet],
        some RunError.nameError) := by
  have h := C9_amended "observed" rowsA [1000] (by decide) (by decide)
    (by decide) (by decide)
  exact ⟨by decide, by decide, by decide, by decide, h.1⟩

/-- Claim C1 (corrected), counterexample: in observed-rate mode ("Reell")
the penalized relaxation (`feasRelax` over the rate-cap constraints, uniform
weight 0.1) is applied BEFORE the one and only `optimize()` call,
unconditionally — not after an INFEASIBLE initial solve, and there is no
resolve: the trace contains the relaxation event at position 4 and the
single solve event after it. -/
theorem C1_counterexample :
    optimize_charging_trace "Reell" rowsA [1000] =
      ([Event.modelCreated, Event.varsAdded, Event.objectiveSet,
        Event.constraintsAdded,
        Event.relaxApplied (List.replicate (rowsA.length * nHoursOf rowsA) (1/10 : ℚ)),
        Event.solveCalled], none) := by
  rfl

/-- Claim C1 (corrected, amended): for every run that reaches the solver, in
flat-rate mode ("22") no relaxation is ever applied (indeed no run in any
mode other than "Reell" ever contains a relaxation event), while in
observed mode ("Reell") the penalized-slack relaxation of the per-vehicle
rate-cap constraints (uniform weight 0.1 on each of the
`N_cars · n_hours` rate caps) is applied unconditionally BEFORE the single
solve; there is exactly one solve per run and no resolve. -/
theorem C1_amended (overview : List OverviewRow) (prices : List ℚ)
    (hne : overview.length ≠ 0)
    (hidx : objectiveIndexOk (nHoursOf overview)
      ((prices.map fun p => p / 1000).take (nHoursOf overview)) = true) :
    optimize_charging_trace "Reell" overview prices =
      ([Event.modelCreated, Event.varsAdded, Event.objectiveSet,
        Event.constraintsAdded,
        Event.relaxApplied
          (List.replicate (overview.length * nHoursOf overview) (1/10 : ℚ)),
        Event.solveCalled], none) ∧
    optimize_charging_trace "22" overview prices =
      ([Event.modelCreated, Event.varsAdded, Event.objectiveSet,
        Event.constraintsAdded, Event.solveCalled], none) ∧
    (∀ pm pens, pm ≠ "Reell" →
      Event.relaxApplied pens ∉ (optimize_charging_trace pm overview prices).1) := by
  refine ⟨?_, ?_, ?_⟩
  · unfold optimize_charging_trace
    rw [if_neg hne, if_neg (by simp [hidx])]
    rfl
  · unfold optimize_charging_trace
    rw [if_neg hne, if_neg (by simp [hidx])]
    rfl
  · intro pm pens hpm
    unfold optimize_charging_trace
    rw [if_neg hne, if_neg (by simp [hidx])]
    cases hmk : mkVehicles pm overview with
    | none => simp
    | some vs => simp [hpm]

/-- Witness for C1_amended on the one-vehicle table. -/
theorem C1_amended_witness :
    rowsA.length ≠ 0 ∧
    objectiveIndexOk (nHoursOf rowsA)
      ((([(1000 : ℚ)]).map fun p => p / 1000).take (nHoursOf rowsA)) = true ∧
    optimize_charging_trace "Reell" rowsA [1000] =
      ([Event.modelCreated, Event.varsAdded, Event.objectiveSet,
        Event.constraintsAdded,
        Event.relaxApplied
          (List.replicate (rowsA.length * nHoursOf rowsA) (1/10 : ℚ)),
        Event.solveCalled], none) ∧
    (Event.relaxApplied [(1/10 : ℚ)] ∉
      (optimize_charging_trace "observed" rowsA [1000]).1) := by
  have h := C1_amended rowsA [1000] (by decide) (by decide)
  exact ⟨by decide, by decide, h.1, h.2.2 "observed" [(1/10 : ℚ)] (by decide)⟩

/-- Claim C4 (corrected), counterexample: for the over-required vehicle of
`rowsB` (100 kWh > 22.1 kW × 2 h) no ValidationError is raised — the run
builds the model and DOES invoke the solver. -/
theorem C4_counterexample :
    (vehAt mdlB 0).max_charge_rate *
        (((vehAt mdlB 0).departure_time - (vehAt mdlB 0).arrival_time : Nat) : ℚ)
      < (vehAt mdlB 0).required_charge ∧
    optimize_charging_trace "22" rowsB [1000] =
      ([Event.modelCreated, Event.varsAdded, Event.objectiveSet,
        Event.constraintsAdded, Event.solveCalled], none) ∧
    Event.solveCalled ∈ (optimize_charging_trace "22" rowsB [1000]).1 := by
  refine ⟨?_, rfl, ?_⟩
  · rw [show vehAt mdlB 0 = ⟨0, 2, 100, 221/10⟩ from rfl]
    norm_num
  · rw [show (optimize_charging_trace "22" rowsB [1000]).1 =
      [Event.modelCreated, Event.varsAdded, Event.objectiveSet,
        Event.constraintsAdded, Event.solveCalled] from rfl]
    simp

/-- Claim C4 (corrected, amended): no validation is performed: for every
flat-mode run containing a vehicle whose required energy exceeds
`max_charge_rate × window`, the model is built and the solver is invoked
anyway (no error of any kind before the solve), and the violation surfaces
as infeasibility instead — no assignment satisfies the unrelaxed
constraints, so the solve cannot return OPTIMAL. -/
theorem C4_amended (overview : List OverviewRow) (prices : List ℚ)
    (month : Nat → Nat) (mdl : ModelData)
    (hmdl : buildModel "22" overview month = some mdl)
    (v : Nat) (hv : v < mdl.nCars)
    (hdep : (vehAt mdl v).departure_time ≤ mdl.nHours)
    (hover : (vehAt mdl v).max_charge_rate *
        (((vehAt mdl v).departure_time - (vehAt mdl v).arrival_time : Nat) : ℚ)
      < (vehAt mdl v).required_charge)
    (hne : overview.length ≠ 0)
    (hidx : objectiveIndexOk (nHoursOf overview)
      ((prices.map fun p => p / 1000).take (nHoursOf overview)) = true) :
    Event.solveCalled ∈ (optimize_charging_trace "22" overview prices).1 ∧
    ∀ charge peakM, ¬ feasible mdl charge peakM := by
  constructor
  · unfold optimize_charging_trace
    rw [if_neg hne, if_neg (by simp [hidx])]
    show Event.solveCalled ∈
      (([Event.modelCreated, Event.varsAdded] ++ [Event.objectiveSet] ++
        [Event.constraintsAdded]) ++ [Event.solveCalled],
        (none : Option RunError)).1
    simp
  · intro charge peakM hfeas
    obtain ⟨-, -, -, heq, -, hcap, -, -⟩ := hfeas
    have he2 : windowSum mdl charge v = (vehAt mdl v).required_charge := by
      have h := heq v hv
      simpa [allow, abs_nonpos_iff, sub_eq_zero] using h
    have hsum : windowSum mdl charge v ≤
        (((vehAt mdl v).departure_time - (vehAt mdl v).arrival_time : Nat)) •
          (vehAt mdl v).max_charge_rate := by
      unfold windowSum
      have hb := Finset.sum_le_card_nsmul
        (Finset.Ico (vehAt mdl v).arrival_time (vehAt mdl v).departure_time)
        (fun t => charge v t) ((vehAt mdl v).max_charge_rate) ?_
      · rwa [Nat.card_Ico] at hb
      · intro t ht
        rw [Finset.mem_Ico] at ht
        have htn : t < mdl.nHours := lt_of_lt_of_le ht.2 hdep
        simpa [allow] using hcap v hv t htn
    rw [nsmul_eq_mul] at hsum
    rw [mul_comm] at hover
    rw [he2] at hsum
    linarith

/-- Witness for C4_amended on `rowsB`: the solver is invoked and the built
model admits no feasible assignment. -/
theorem C4_amended_witness :
    buildModel "22" rowsB (fun _ => 1) = some mdlB ∧
    (0 < mdlB.nCars) ∧ ((vehAt mdlB 0).departure_time ≤ mdlB.nHours) ∧
    ((vehAt mdlB 0).max_charge_rate *
        (((vehAt mdlB 0).departure_time - (vehAt mdlB 0).arrival_time : Nat) : ℚ)
      < (vehAt mdlB 0).required_charge) ∧
    Event.solveCalled ∈ (optimize_charging_trace "22" rowsB [1000]).1 ∧
    ¬ feasible mdlB (fun _ _ => 0) (fun _ => 0) := by
  have hover : (vehAt mdlB 0).max_charge_rate *
      (((vehAt mdlB 0).departure_time - (vehAt mdlB 0).arrival_time : Nat) : ℚ)
      < (vehAt mdlB 0).required_charge := by
    rw [show vehAt mdlB 0 = ⟨0, 2, 100, 221/10⟩ from rfl]
    norm_num
  have h := C4_amended rowsB [1000] (fun _ => 1) mdlB rfl 0 (by decide)
    (by decide) hover (by decide) (by decide)
  exact ⟨rfl, by decide, by decide, hover, h.1, h.2 _ _⟩

/-- Claim C5 (corrected), counterexample: the spot-price table
`spotRowsGap` is missing hour 2, strictly inside the 4-hour horizon of
`rowsC`, yet no error of any kind is raised: the run builds the model and
calls the solver (the first `n_hours` remaining prices are used
positionally). -/
theorem C5_counterexample :
    ¬ coversHorizon (spotRowsGap.map Prod.fst) 0 (nHoursOf rowsC) ∧
    run_simulation_trace spotRowsGap 0 rowsC "22" =
      ([Event.modelCreated, Event.varsAdded, Event.objectiveSet,
        Event.constraintsAdded, Event.solveCalled], none) := by
  exact ⟨by decide, rfl⟩

/-- Claim C5 (corrected, amended): there is no `DataGapError`: the only
pre-solve check on the price series is the `ValueError` raised when the
chosen start time is absent from the index.  Whenever the start is present
and enough rows remain for the objective's indexing (at least
`n_hours − 1`), the solver is invoked with no prior error — regardless of
any gap inside the horizon; the remaining prices are consumed positionally,
misaligned after a gap. -/
theorem C5_amended (spotRows : List (Int × ℚ)) (start : Int)
    (overview : List OverviewRow)
    (hne : overview.length ≠ 0)
    (hstart : start ∈ spotRows.map Prod.fst)
    (hidx : objectiveIndexOk (nHoursOf overview)
      ((((spotRows.filter fun r => !(r.1 < start)).map Prod.snd).map
        fun p => p / 1000).take (nHoursOf overview)) = true) :
    run_simulation_trace spotRows start overview "22" =
      ([Event.modelCreated, Event.varsAdded, Event.objectiveSet,
        Event.constraintsAdded, Event.solveCalled], none) := by
  unfold run_simulation_trace get_relevant_spotprices
  rw [if_pos (by simpa using hstart)]
  show optimize_charging_trace "22" overview
      ((spotRows.filter fun r => !(r.1 < start)).map Prod.snd) = _
  unfold optimize_charging_trace
  rw [if_neg hne, if_neg (by simp only [List.map_map] at hidx; simp [hidx])]
  rfl

/-- Witness for C5_amended on the gapped table `spotRowsGap`. -/
theorem C5_amended_witness :
    rowsC.length ≠ 0 ∧
    (0 : Int) ∈ spotRowsGap.map Prod.fst ∧
    objectiveIndexOk (nHoursOf rowsC)
      ((((spotRowsGap.filter fun r => !(r.1 < 0)).map Prod.snd).map
        fun p => p / 1000).take (nHoursOf rowsC)) = true ∧
    run_simulation_trace spotRowsGap 0 rowsC "22" =
      ([Event.modelCreated, Event.varsAdded, Event.objectiveSet,
        Event.constraintsAdded, Event.solveCalled], none) := by
  have h := C5_amended spotRowsGap 0 rowsC (by decide) (by decide) (by decide)
  exact ⟨by decide, by decide, by decide, h⟩

/-- If the unrelaxed model is satisfied, the relaxed model with all slack
variables at 0 is satisfied as well (the allowances are all 0 either way). -/
theorem modelSat_zero_slack (mdl : ModelData) (relaxed : List ConId)
    (charge : Nat → Nat → ℚ) (peakM : Nat → ℚ)
    (h : feasible mdl charge peakM) :
    modelSat mdl relaxed (fun _ => 0) charge peakM := by
  unfold feasible at h
  unfold modelSat at h ⊢
  simp only [allow, ite_self] at h ⊢
  exact ⟨by simp, h.2⟩

/-- Claim C2 (corrected), counterexample: the flat-rate run on `rowsA`
never engages relaxation (its trace has no relaxation event), the solver
assignment `chargeA`/`peakA` satisfies every constraint of the model with
objective value 5 (price 1 NOK/kWh, zero tariff), and the result's
`exceeded_power` is `round(objVal, 2) = 5`, not 0. -/
theorem C2_counterexample :
    buildModel "22" rowsA (fun _ => 1) = some mdlA ∧
    (optimize_charging_trace "22" rowsA [1000]).1 =
      [Event.modelCreated, Event.varsAdded, Event.objectiveSet,
       Event.constraintsAdded, Event.solveCalled] ∧
    feasible mdlA chargeA peakA ∧
    energyCostCode 1 1 [1] chargeA = some 5 ∧
    peakCostVal (uniqueMonths 1 fun _ => 1) (fun _ => 0) peakA = 0 ∧
    (_get_optimization_results mdlA [1] (fun _ => 0)
        ⟨5, chargeA, peakA⟩).exceeded_power = 5 ∧
    (5 : ℚ) ≠ 0 := by
  refine ⟨rfl, rfl, feasible_mdlA, ?_, ?_, ?_, by norm_num⟩
  · unfold energyCostCode
    rw [if_pos (by decide)]
    norm_num [chargeA, priceAtCode, pyIdx]
  · simp [peakCostVal, uniqueMonths]
  · show pyRound2 5 = 5
    rw [pyRound2_of_mul_eq_int 5 500 (by norm_num)]
    norm_num

/-- Claim C2 (corrected, amended): in the returned OptimizationResult,
`exceeded_power` equals the solved model's reported objective value rounded
to two decimals — in every run, whether or not relaxation ran; in
particular it is strictly positive (hence nonzero) whenever the objective
value exceeds 1/200, instead of being 0 in unrelaxed runs. -/
theorem C2_amended (mdl : ModelData) (prices : List ℚ) (tariff : Nat → ℚ)
    (sol : SolverOutput) :
    (_get_optimization_results mdl prices tariff sol).exceeded_power
      = pyRound2 sol.objVal ∧
    (1/200 < sol.objVal →
      0 < (_get_optimization_results mdl prices tariff sol).exceeded_power) := by
  refine ⟨rfl, ?_⟩
  intro h
  show 0 < pyRound2 sol.objVal
  exact pyRound2_pos _ h

/-- Witness for C2_amended at objective value 5. -/
theorem C2_amended_witness :
    ((1 : ℚ)/200 < 5) ∧
    (_get_optimization_results mdlA [1] (fun _ => 0)
        ⟨5, chargeA, peakA⟩).exceeded_power = pyRound2 5 ∧
    0 < (_get_optimization_results mdlA [1] (fun _ => 0)
        ⟨5, chargeA, peakA⟩).exceeded_power := by
  have h := C2_amended mdlA [1] (fun _ => 0) ⟨5, chargeA, peakA⟩
  exact ⟨by norm_num, h.1, h.2 (by norm_num)⟩

/-- Claim C3 (code_bug): the code multiplies `charge[v,t]` by
`charging_cost_per_hour[t-1]`, not by the price of hour `t`: with prices
(1, 3) NOK/kWh over a 2-hour horizon, hour 0 is priced at 3 — the price of
the LAST hour, reached through Python's negative index `-1` — and hour 1 at
1, so on a schedule charging 1 kWh in hour 0 the code's energy term is 3
while the specified objective (same-hour pricing) is 1. -/
theorem C3_objective_off_by_one :
    priceAtCode [1, 3] 0 = 3 ∧
    priceAtCode [1, 3] 1 = 1 ∧
    energyCostCode 1 2 [1, 3] (fun v t => if v = 0 ∧ t = 0 then 1 else 0)
      = some 3 ∧
    energyCostSpec 1 2 [1, 3] (fun v t => if v = 0 ∧ t = 0 then 1 else 0)
      = 1 ∧
    energyCostCode 1 2 [1, 3] (fun v t => if v = 0 ∧ t = 0 then 1 else 0)
      ≠ some (energyCostSpec 1 2 [1, 3]
          (fun v t => if v = 0 ∧ t = 0 then 1 else 0)) := by
  have h1 : priceAtCode [1, 3] 0 = 3 := by norm_num [priceAtCode, pyIdx]
  have h2 : priceAtCode [1, 3] 1 = 1 := by norm_num [priceAtCode, pyIdx]
  have h3 : energyCostCode 1 2 [1, 3]
      (fun v t => if v = 0 ∧ t = 0 then 1 else 0) = some 3 := by
    unfold energyCostCode
    rw [if_pos (by decide)]
    rw [show (∑ v ∈ Finset.range 1, ∑ t ∈ Finset.range 2,
      (fun v t => if v = 0 ∧ t = 0 then (1 : ℚ) else 0) v t
        * priceAtCode [1, 3] t) = priceAtCode [1, 3] 0 from by
      norm_num [Finset.sum_range_succ]]
    rw [h1]
  have h4 : energyCostSpec 1 2 [1, 3]
      (fun v t => if v = 0 ∧ t = 0 then 1 else 0) = 1 := by
    norm_num [energyCostSpec, Finset.sum_range_succ]
  refine ⟨h1, h2, h3, h4, ?_⟩
  rw [h3, h4]
  intro habs
  exact absurd (Option.some.injEq _ _ ▸ habs) (by norm_num)

/-- Claim C6 (confirmed): the energy-commitment equality constraints are
not among the constraints handed to `feasRelax` (`con_power` holds only
rate caps), so under the relaxed model — as under the unrelaxed one — every
satisfying assignment delivers exactly the required energy to each vehicle
inside its parking window. -/
theorem C6_energy_commitment_never_relaxed (mdl : ModelData)
    (slack : ConId → ℚ) (charge : Nat → Nat → ℚ) (peakM : Nat → ℚ) :
    (∀ v, ConId.energyEq v ∉ con_power mdl.nCars mdl.nHours) ∧
    (modelSat mdl (con_power mdl.nCars mdl.nHours) slack charge peakM →
      ∀ v < mdl.nCars,
        windowSum mdl charge v = (vehAt mdl v).required_charge) ∧
    (feasible mdl charge peakM →
      ∀ v < mdl.nCars,
        windowSum mdl charge v = (vehAt mdl v).required_charge) := by
  have hmem : ∀ v, ConId.energyEq v ∉ con_power mdl.nCars mdl.nHours := by
    intro v hv
    simp [con_power] at hv
  refine ⟨hmem, ?_, ?_⟩
  · intro hsat v hv
    obtain ⟨-, -, -, heq, -⟩ := hsat
    have h := heq v hv
    rw [allow, if_neg (hmem v)] at h
    exact sub_eq_zero.mp (abs_nonpos_iff.mp h)
  · intro hsat v hv
    obtain ⟨-, -, -, heq, -⟩ := hsat
    have h := heq v hv
    simpa [allow, abs_nonpos_iff, sub_eq_zero] using h

/-- Witness for C6 on `mdlA` with the relaxed constraint set and zero
slack: the energy equality is not in `con_power` and the commitment holds
exactly. -/
theorem C6_energy_commitment_never_relaxed_witness :
    (ConId.energyEq 0 ∉ con_power mdlA.nCars mdlA.nHours) ∧
    modelSat mdlA (con_power mdlA.nCars mdlA.nHours) (fun _ => 0)
      chargeA peakA ∧
    windowSum mdlA chargeA 0 = (vehAt mdlA 0).required_charge := by
  have hsat := modelSat_zero_slack mdlA (con_power mdlA.nCars mdlA.nHours)
    chargeA peakA feasible_mdlA
  have h := C6_energy_commitment_never_relaxed mdlA (fun _ => 0) chargeA peakA
  exact ⟨h.1 0, hsat, h.2.1 hsat 0 (by decide)⟩

/-- The aggregation loop over the popped `hours_to_month` keys equals the
sum over all keys `0..n` except the final boundary key `n`. -/
theorem monthlyAgg_dropLast (n : Nat) (htm : Nat → Nat) (f g : Nat → ℚ)
    (hfg : ∀ t < n, f t = g t) (m : Nat) :
    monthlyAgg ((List.range (n + 1)).dropLast) htm f m
      = ∑ t ∈ Finset.range (n + 1), if htm t = m ∧ t ≠ n then g t else 0 := by
  have hdrop : (List.range (n + 1)).dropLast = List.range n := by
    rw [List.range_succ, List.dropLast_concat]
  rw [hdrop, monthlyAgg_eq_sum,
    filter_range_map_sum n (fun t => htm t = m) f,
    Finset.sum_range_succ]
  have hlast : (if htm n = m ∧ n ≠ n then g n else 0) = 0 := by simp
  rw [hlast, add_zero]
  refine Finset.sum_congr rfl ?_
  intro t ht
  have htn : t < n := Finset.mem_range.mp ht
  by_cases hc : htm t = m
  · simp [hc, Nat.ne_of_lt htn, hfg t htn]
  · simp [hc]

/-- Claim C7 (confirmed): `monthly_energy_charge` sums the total hourly load
— and `monthly_energy_cost` the load times that same hour's price — over
every hour `0..n_hours` of the `hours_to_month` mapping belonging to the
month, except the final boundary hour `n_hours` (the popped last key),
which is excluded from the monthly aggregation. -/
theorem C7_monthly_aggregation (mdl : ModelData) (prices : List ℚ)
    (tariff : Nat → ℚ) (sol : SolverOutput) (m : Nat) :
    (_get_optimization_results mdl prices tariff sol).monthly_energy_charge m
      = (∑ t ∈ Finset.range (mdl.nHours + 1),
          if mdl.htm t = m ∧ t ≠ mdl.nHours
          then totalLoadAt mdl sol.charge t else 0) ∧
    (_get_optimization_results mdl prices tariff sol).monthly_energy_cost m
      = (∑ t ∈ Finset.range (mdl.nHours + 1),
          if mdl.htm t = m ∧ t ≠ mdl.nHours
          then totalLoadAt mdl sol.charge t * prices.getD t 0 else 0) := by
  constructor
  · show monthlyAgg ((List.range (mdl.nHours + 1)).dropLast) mdl.htm
      (fun t => (((List.range mdl.nHours).map
        fun t => totalLoadAt mdl sol.charge t)).getD t 0) m = _
    exact monthlyAgg_dropLast mdl.nHours mdl.htm _ _
      (fun t ht => getD_map_range mdl.nHours t _ ht) m
  · show monthlyAgg ((List.range (mdl.nHours + 1)).dropLast) mdl.htm
      (fun t => (((List.range mdl.nHours).map
        fun t => totalLoadAt mdl sol.charge t)).getD t 0 * prices.getD t 0) m = _
    refine monthlyAgg_dropLast mdl.nHours mdl.htm _ _ ?_ m
    intro t ht
    rw [getD_map_range mdl.nHours t _ ht]
